import Mathlib

/-!
Verification of the api2go resource dispatch engine (`api.go`).

The handlers are embedded as executable Lean functions that return the
ordered trace of observable events (data-source calls, controller hook
invocations, header mutations, status and body writes) together with the
`error` value the Go handler returns.  The data source and the optional
controller are oracles: arbitrary functions supplied as inputs, so every
theorem quantifies over all of their behaviours.

Functions of the repository that are not part of this source snapshot
(`unmarshalInto`, `MarshalToJSON`, `marshalError`, `jsonify`, `pluralize`
and the `HTTPError` type) are modelled from the specification; each such
definition carries a doc comment starting with `Modelled from the spec:`.
-/

namespace Api2go

/-- A JSON value, the shape of wire data (`interface{}` holding decoded JSON). -/
inductive JsonVal where
  | null
  | bool (b : Bool)
  | num (n : Int)
  | str (s : String)
  | arr (xs : List JsonVal)
  | obj (kvs : List (String × JsonVal))

/-- A Generic Record Value: one record-type instance represented as its
field assignment (field name to JSON value), mirroring what reflection
reads off a Go struct of the registered resource type. -/
def Rec : Type := List (String × JsonVal)

/-- First-match association-list lookup, the semantics of a Go map access
for the string-keyed maps the handlers use. -/
def lookupKey {α : Type} : List (String × α) → String → Option α
  | [], _ => none
  | (k, v) :: rest, key => if k = key then some v else lookupKey rest key

/-- The in-flight value a read handler holds: `FindOne` produces a single
record, `FindMultiple`/`FindAll` produce a collection (Go passes both as
`interface{}`). -/
inductive Obj where
  | single (r : Rec)
  | coll (rs : List Rec)

/-- Modelled from the spec: the `HTTPError` type (its source file is not in
this snapshot): status code, message, and optional structured sub-errors. -/
structure HTTPError where
  status : Nat
  msg : String
  errs : List String

/-- An error value travelling up the handler chain: either a classified
`HTTPError` or a plain error (such as one built by `errors.New`). -/
inductive Err where
  | httpError (e : HTTPError)
  | basic (msg : String)

/-- A response body: encoded record data, an encoded structured sub-error
list, or plain text (what `http.Error` writes). -/
inductive Body where
  | data (o : Obj)
  | errList (errs : List String)
  | text (s : String)

/-- The Request value handed to the data source: parsed query parameters. -/
structure Request where
  queryParams : List (String × List String)

/-- The inbound HTTP request as the handlers observe it: the raw query
(each key with its ordered list of values, as Go's `url.Values`) and the
request body.  A body is either unreadable/malformed JSON or a parsed
top-level JSON value. -/
inductive BodyInput where
  | malformed
  | val (v : JsonVal)

structure HttpRequest where
  query : List (String × List String)
  body : BodyInput

/-- One observable event of a handler run, in order. -/
inductive Event where
  | dsFindAll (req : Request)
  | dsFindOne (id : String) (req : Request)
  | dsFindMultiple (ids : List String) (req : Request)
  | dsCreate (obj : Rec)
  | dsUpdate (obj : Rec)
  | dsDelete (id : String)
  | ctrlFindAll
  | ctrlFindOne
  | ctrlCreate
  | ctrlUpdate
  | ctrlDelete (id : String)
  | setHeader (key value : String)
  | writeHeader (status : Nat)
  | writeBody (b : Body)
  | logged (e : Err)

/-- The DataSource collaborator, as an oracle over its six operations. -/
structure DataSource where
  findAll : Request → Except Err (List Rec)
  findOne : String → Request → Except Err Rec
  findMultiple : List String → Request → Except Err (List Rec)
  create : Rec → Except Err String
  delete : String → Except Err Unit
  update : Rec → Except Err Unit

/-- The optional Controller collaborator: each hook may mutate the
in-flight value (modelled by returning the new value) or fail. -/
structure Controller where
  findAll : HttpRequest → Obj → Except Err Obj
  findOne : HttpRequest → Obj → Except Err Obj
  create : HttpRequest → Rec → Except Err Rec
  update : HttpRequest → Rec → Except Err Rec
  delete : HttpRequest → String → Except Err Unit

/-- A registered resource: derived name, the record type's field names,
the data source, and the optional controller. -/
structure Resource where
  name : String
  fields : List String
  source : DataSource
  controller : Option Controller

/-- Splitting a character list on commas; `splitChars s acc` processes `s`
with `acc` the (reversed) current segment. -/
def splitChars : List Char → List Char → List (List Char)
  | [], acc => [acc.reverse]
  | c :: rest, acc =>
      if c = ',' then acc.reverse :: splitChars rest []
      else splitChars rest (c :: acc)

/-- Embeds Go's `strings.Split(s, ",")`: the list of comma-separated
segments of `s`, always non-empty (`strings.Split("", ",")` is `[""]`). -/
def commaSplit (s : String) : List String :=
  (splitChars s.data []).map (fun cs => String.mk cs)

/-- Embeds `buildRequest`: every query key is mapped to the comma-split of
its first value (`strings.Split(values[0], ",")`). -/
def buildRequest (r : HttpRequest) : Request :=
  ⟨r.query.map (fun kv => (kv.1, commaSplit (kv.2.headD "")))⟩

/-- Embeds `unmarshalJSONRequest`: the body is read and unmarshalled into a
`map[string]interface{}`.  Go's `encoding/json` succeeds exactly on a
top-level JSON object — and on the JSON literal `null`, which by the
documented stdlib rule unmarshals into a map by setting it to nil, leaving
an empty map with no error. -/
def unmarshalJSONRequest : BodyInput → Except Err (List (String × JsonVal))
  | .malformed => .error (.basic "invalid JSON")
  | .val (.obj kvs) => .ok kvs
  | .val .null => .ok []
  | .val _ => .error (.basic "json: cannot unmarshal value into map")

/-- The zero value of the record type: every field at its zero JSON value. -/
def zeroRecord (fields : List String) : Rec :=
  fields.map (fun f => (f, JsonVal.null))

/-- Modelled from the spec: field-present-only assignment (§4.2).  Only
keys present in the wire document overwrite the corresponding fields; all
other fields retain the pre-populated base value. -/
def mergeRecord (fields : List String) (base : Rec) (doc : List (String × JsonVal)) : Rec :=
  fields.map (fun f =>
    (f, match lookupKey doc f with
        | some v => v
        | none => (lookupKey base f).getD JsonVal.null))

/-- Merges the incoming record documents positionally onto the
pre-populated target records; incoming records beyond the target's length
start from the zero record, targets beyond the incoming length are kept. -/
def mergeAll (fields : List String) : List Rec → List (List (String × JsonVal)) → List Rec
  | ts, [] => ts
  | ts, d :: ds =>
      mergeRecord fields (ts.headD (zeroRecord fields)) d :: mergeAll fields ts.tail ds

/-- Modelled from the spec: the Document Codec decode step
(`unmarshalInto`, whose source file is not in this snapshot).  Per §4.2 the
wire document describes either a single object or a list of objects (under
the resource's name, JSON-API style), normalized into a sequence of zero
or more typed records; decoding merges field-present-only onto the
caller's pre-populated target slice, and a wire value of the wrong shape
is a decode error. -/
def unmarshalInto (name : String) (fields : List String)
    (ctx : List (String × JsonVal)) (target : List Rec) : Except Err (List Rec) :=
  match lookupKey ctx name with
  | none => .ok target
  | some (.obj kvs) => .ok (mergeAll fields target [kvs])
  | some (.arr docs) =>
      match allObjs docs with
      | some ds => .ok (mergeAll fields target ds)
      | none => .error (.basic "expected object in document list")
  | some _ => .error (.basic "expected object or list of objects")
where
  allObjs : List JsonVal → Option (List (List (String × JsonVal)))
    | [] => some []
    | .obj kvs :: rest => (allObjs rest).map (kvs :: ·)
    | _ => none

/-- Modelled from the spec: `MarshalToJSON` encodes a record value or a
sequence of records into wire bytes (§4.2); the encoded form is kept
structural. -/
def MarshalToJSON (o : Obj) : Except Err Body := .ok (.data o)

/-- Modelled from the spec: `marshalError` serializes an `HTTPError`'s
structured sub-error list for the client-facing body. -/
def marshalError (e : HTTPError) : Body := .errList e.errs

/-- Embeds `respondWith`: marshal, set `Content-Type`, write the status,
write the body.  A marshal failure returns before anything is written. -/
def respondWith (obj : Obj) (status : Nat) : List Event × Option Err :=
  match MarshalToJSON obj with
  | .error e => ([], some e)
  | .ok b =>
      ([.setHeader "Content-Type" "application/json", .writeHeader status, .writeBody b],
       none)

/-- Embeds `handleError`: log the error, then answer with the `HTTPError`'s
status and either the structured sub-error list or the plain message (via
`http.Error`, which sets its two headers, writes the status and the text),
or a bare 500 for an unclassified error. -/
def handleError (err : Err) : List Event :=
  .logged err ::
    match err with
    | .httpError e =>
        if e.errs.length > 0 then
          [.setHeader "Content-Type" "text/plain; charset=utf-8",
           .setHeader "X-Content-Type-Options" "nosniff",
           .writeHeader e.status, .writeBody (marshalError e)]
        else
          [.setHeader "Content-Type" "text/plain; charset=utf-8",
           .setHeader "X-Content-Type-Options" "nosniff",
           .writeHeader e.status, .writeBody (.text e.msg)]
    | .basic _ => [.writeHeader 500]

/-- The route wrapper around every handler: on a non-nil error the trace
continues with `handleError`. -/
def fullTrace (p : List Event × Option Err) : List Event :=
  p.1 ++ match p.2 with
         | some e => handleError e
         | none => []

/-- Embeds `handleIndex` after `FindAll` succeeded: optional `FindAll`
hook, then a 200 response. -/
def indexRest (res : Resource) (r : HttpRequest) (t : List Event) (objs : Obj) :
    List Event × Option Err :=
  match res.controller with
  | none =>
      let p := respondWith objs 200
      (t ++ p.1, p.2)
  | some c =>
      match c.findAll r objs with
      | .error e => (t ++ [.ctrlFindAll], some e)
      | .ok objs2 =>
          let p := respondWith objs2 200
          (t ++ [.ctrlFindAll] ++ p.1, p.2)

/-- Embeds `handleIndex`. -/
def handleIndex (res : Resource) (r : HttpRequest) : List Event × Option Err :=
  match res.source.findAll (buildRequest r) with
  | .error e => ([.dsFindAll (buildRequest r)], some e)
  | .ok objs => indexRest res r [.dsFindAll (buildRequest r)] (.coll objs)

/-- Embeds the tail of `handleRead`: optional `FindOne` hook on the
fetched value, then a 200 response. -/
def readRest (res : Resource) (r : HttpRequest) (t : List Event) (obj : Obj) :
    List Event × Option Err :=
  match res.controller with
  | none =>
      let p := respondWith obj 200
      (t ++ p.1, p.2)
  | some c =>
      match c.findOne r obj with
      | .error e => (t ++ [.ctrlFindOne], some e)
      | .ok obj2 =>
          let p := respondWith obj2 200
          (t ++ [.ctrlFindOne] ++ p.1, p.2)

/-- Embeds `handleRead`: split the id segment on commas; exactly one id
goes to `FindOne`, any other count goes to `FindMultiple` once with the
full list. -/
def handleRead (res : Resource) (r : HttpRequest) (idSegment : String) :
    List Event × Option Err :=
  match commaSplit idSegment with
  | [i] =>
      match res.source.findOne i (buildRequest r) with
      | .error e => ([.dsFindOne i (buildRequest r)], some e)
      | .ok o => readRest res r [.dsFindOne i (buildRequest r)] (.single o)
  | ids =>
      match res.source.findMultiple ids (buildRequest r) with
      | .error e => ([.dsFindMultiple ids (buildRequest r)], some e)
      | .ok os => readRest res r [.dsFindMultiple ids (buildRequest r)] (.coll os)

/-- Embeds the tail of `handleCreate` from the `Create` call on: create,
set the `Location` header, re-fetch the canonical record, respond 201. -/
def createCommit (res : Resource) (pfx : String) (r : HttpRequest) (t : List Event)
    (newObj : Rec) : List Event × Option Err :=
  match res.source.create newObj with
  | .error e => (t ++ [.dsCreate newObj], some e)
  | .ok id =>
      let t2 := t ++ [.dsCreate newObj,
                      .setHeader "Location" (pfx ++ res.name ++ "/" ++ id)]
      match res.source.findOne id (buildRequest r) with
      | .error e => (t2 ++ [.dsFindOne id (buildRequest r)], some e)
      | .ok obj =>
          let p := respondWith (.single obj) 201
          (t2 ++ [.dsFindOne id (buildRequest r)] ++ p.1, p.2)

/-- Embeds `handleCreate`: parse the body, decode into a fresh slice,
require exactly one record, run the `Create` hook, then commit. -/
def handleCreate (res : Resource) (pfx : String) (r : HttpRequest) :
    List Event × Option Err :=
  match unmarshalJSONRequest r.body with
  | .error e => ([], some e)
  | .ok ctx =>
      match unmarshalInto res.name res.fields ctx [] with
      | .error e => ([], some e)
      | .ok newObjs =>
          match newObjs with
          | [newObj] =>
              match res.controller with
              | none => createCommit res pfx r [] newObj
              | some c =>
                  match c.create r newObj with
                  | .error e => ([.ctrlCreate], some e)
                  | .ok newObj2 => createCommit res pfx r [.ctrlCreate] newObj2
          | _ => ([], some (.basic "expected one object in POST"))

/-- Embeds the tail of `handleUpdate` from the `Update` hook on: optional
hook, `Update` on the (possibly hook-modified) record, then a bare 204. -/
def updateCommit (res : Resource) (r : HttpRequest) (t : List Event) (u : Rec) :
    List Event × Option Err :=
  match res.controller with
  | none =>
      match res.source.update u with
      | .error e => (t ++ [.dsUpdate u], some e)
      | .ok _ => (t ++ [.dsUpdate u, .writeHeader 204], none)
  | some c =>
      match c.update r u with
      | .error e => (t ++ [.ctrlUpdate], some e)
      | .ok u2 =>
          match res.source.update u2 with
          | .error e => (t ++ [.ctrlUpdate, .dsUpdate u2], some e)
          | .ok _ => (t ++ [.ctrlUpdate, .dsUpdate u2, .writeHeader 204], none)

/-- Embeds `handleUpdate`: fetch the current record, parse the body,
decode with partial merge against the fetched record, require exactly one
record, hook, update, 204. -/
def handleUpdate (res : Resource) (r : HttpRequest) (id : String) :
    List Event × Option Err :=
  let req := buildRequest r
  match res.source.findOne id req with
  | .error e => ([.dsFindOne id req], some e)
  | .ok obj =>
      match unmarshalJSONRequest r.body with
      | .error e => ([.dsFindOne id req], some e)
      | .ok ctx =>
          match unmarshalInto res.name res.fields ctx [obj] with
          | .error e => ([.dsFindOne id req], some e)
          | .ok objs =>
              match objs with
              | [u] => updateCommit res r [.dsFindOne id req] u
              | _ => ([.dsFindOne id req], some (.basic "expected one object in PUT"))

/-- Embeds `handleDelete`: optional `Delete` hook (which may veto), then
`Delete` on the data source, then a bare 204. -/
def handleDelete (res : Resource) (r : HttpRequest) (id : String) :
    List Event × Option Err :=
  match res.controller with
  | none =>
      match res.source.delete id with
      | .error e => ([.dsDelete id], some e)
      | .ok _ => ([.dsDelete id, .writeHeader 204], none)
  | some c =>
      match c.delete r id with
      | .error e => ([.ctrlDelete id], some e)
      | .ok _ =>
          match res.source.delete id with
          | .error e => ([.ctrlDelete id, .dsDelete id], some e)
          | .ok _ => ([.ctrlDelete id, .dsDelete id, .writeHeader 204], none)

/-- A data-source mutation event (`Create`, `Update` or `Delete`). -/
def isMutation : Event → Bool
  | .dsCreate _ => true
  | .dsUpdate _ => true
  | .dsDelete _ => true
  | _ => false

def hasMutation (t : List Event) : Bool := t.any isMutation

def isWriteHeader : Event → Bool
  | .writeHeader _ => true
  | _ => false

def isWriteBody : Event → Bool
  | .writeBody _ => true
  | _ => false

def isSetHeader : Event → Bool
  | .setHeader _ _ => true
  | _ => false

def isDsCreate : Event → Bool
  | .dsCreate _ => true
  | _ => false

def isDsUpdate : Event → Bool
  | .dsUpdate _ => true
  | _ => false

def isDsFindOne : Event → Bool
  | .dsFindOne _ _ => true
  | _ => false

def isDsFindMultiple : Event → Bool
  | .dsFindMultiple _ _ => true
  | _ => false

/-- Number of status writes in a trace. -/
def countWrites (t : List Event) : Nat := t.countP (fun e => isWriteHeader e)

/-- The kind of a Go value's type, as `reflect.Kind` distinguishes them. -/
inductive GoKind where
  | structKind
  | ptrKind
  | sliceKind
  | mapKind
  | scalarKind
deriving DecidableEq

/-- A prototype value's runtime type: its kind, its bare type name, and
its field names (meaningful for struct kinds). -/
structure GoType where
  kind : GoKind
  typeName : String
  fieldNames : List String

/-- Modelled from the spec: `jsonify` lowercases a declared name for the
wire (its source file is not in this snapshot; the exact casing rule is
irrelevant to the registration claim). -/
def jsonify (s : String) : String := s.toLower

/-- Modelled from the spec: `pluralize` applies the simple trailing-s
English rule (its source file is not in this snapshot). -/
def pluralize (s : String) : String :=
  if s.endsWith "s" then s ++ "es" else s ++ "s"

/-- A registered route: HTTP method and path pattern. -/
structure Route where
  method : String
  path : String
deriving DecidableEq

/-- Embeds `addResource`: a non-struct prototype panics (modelled as
`Except.error` carrying the panic message) before any route is
registered; a struct prototype derives the resource name and registers
the seven routes. -/
def addResource (pfx : String) (prototype : GoType) : Except String (List Route) :=
  if prototype.kind = .structKind then
    let name := jsonify (pluralize prototype.typeName)
    .ok [⟨"OPTIONS", pfx ++ name⟩,
         ⟨"OPTIONS", pfx ++ name ++ "/:id"⟩,
         ⟨"GET", pfx ++ name⟩,
         ⟨"GET", pfx ++ name ++ "/:id"⟩,
         ⟨"POST", pfx ++ name⟩,
         ⟨"DELETE", pfx ++ name ++ "/:id"⟩,
         ⟨"PUT", pfx ++ name ++ "/:id"⟩]
  else
    .error "pass an empty resource struct to AddResource!"

/-! ### Helper lemmas -/

theorem lookupKey_map {α β : Type} (f : α → β) (q : List (String × α)) (k : String) :
    lookupKey (q.map (fun kv => (kv.1, f kv.2))) k = (lookupKey q k).map f := by
  induction q with
  | nil => rfl
  | cons kv rest ih =>
      simp only [List.map_cons, lookupKey]
      by_cases h : kv.1 = k
      · simp [h]
      · simp [h, ih]

theorem lookupKey_mergeRecord (fields : List String) (base doc : List (String × JsonVal))
    (f : String) (hf : f ∈ fields) :
    lookupKey (mergeRecord fields base doc) f =
      some (match lookupKey doc f with
            | some v => v
            | none => (lookupKey base f).getD JsonVal.null) := by
  induction fields with
  | nil => cases hf
  | cons g gs ih =>
      simp only [mergeRecord, List.map_cons, lookupKey]
      by_cases h : g = f
      · simp [h]
      · have hgs : f ∈ gs := by
          rcases List.mem_cons.mp hf with h1 | h1
          · exact absurd h1.symm h
          · exact h1
        have := ih hgs
        simp only [mergeRecord] at this
        simp [h, this]

theorem respondWith_eq (o : Obj) (s : Nat) :
    respondWith o s =
      ([.setHeader "Content-Type" "application/json", .writeHeader s,
        .writeBody (.data o)], none) := rfl

/-! ### C7 — error translation -/

/-- C7: every error reaching `handleError` is first logged; an `HTTPError`
answers with its own status and a body that is the structured sub-error
list when sub-errors are present and the plain message otherwise; any
other error answers a bare 500 with no body. -/
theorem handleError_translation (err : Err) :
    (∃ rest, handleError err = .logged err :: rest) ∧
    (∀ e, err = .httpError e → e.errs.length > 0 →
        handleError err = [.logged err,
          .setHeader "Content-Type" "text/plain; charset=utf-8",
          .setHeader "X-Content-Type-Options" "nosniff",
          .writeHeader e.status, .writeBody (marshalError e)]) ∧
    (∀ e, err = .httpError e → e.errs.length = 0 →
        handleError err = [.logged err,
          .setHeader "Content-Type" "text/plain; charset=utf-8",
          .setHeader "X-Content-Type-Options" "nosniff",
          .writeHeader e.status, .writeBody (.text e.msg)]) ∧
    (∀ m, err = .basic m → handleError err = [.logged err, .writeHeader 500]) := by
  refine ⟨⟨_, rfl⟩, ?_, ?_, ?_⟩
  · intro e he hpos
    subst he
    simp only [handleError]
    rw [if_pos hpos]
  · intro e he hzero
    subst he
    simp only [handleError]
    rw [if_neg (by omega)]
  · intro m hm
    subst hm
    rfl

theorem handleError_translation_witness :
    handleError (.httpError ⟨404, "not found", ["id missing"]⟩) =
      [.logged (.httpError ⟨404, "not found", ["id missing"]⟩),
       .setHeader "Content-Type" "text/plain; charset=utf-8",
       .setHeader "X-Content-Type-Options" "nosniff",
       .writeHeader 404, .writeBody (.errList ["id missing"])] ∧
    handleError (.basic "boom") = [.logged (.basic "boom"), .writeHeader 500] :=
  ⟨(handleError_translation (.httpError ⟨404, "not found", ["id missing"]⟩)).2.1
      ⟨404, "not found", ["id missing"]⟩ rfl (by decide),
   (handleError_translation (.basic "boom")).2.2.2 "boom" rfl⟩

/-! ### C8 — query parameters -/

/-- C8: the Request passed to the data source maps each query key of the
inbound URL to the comma-split of its value, so a single value (no comma)
becomes a one-element list. -/
theorem buildRequest_query_commaSplit (r : HttpRequest) (k : String) (vs : List String)
    (h : lookupKey r.query k = some vs) :
    lookupKey (buildRequest r).queryParams k = some (commaSplit (vs.headD "")) := by
  unfold buildRequest
  simp only []
  rw [lookupKey_map (fun vs => commaSplit (vs.headD "")) r.query k, h]
  rfl

theorem buildRequest_query_commaSplit_witness :
    lookupKey
        (buildRequest ⟨[("filter", ["a,b"]), ("page", ["3"])], .malformed⟩).queryParams
        "filter" = some ["a", "b"] ∧
    lookupKey
        (buildRequest ⟨[("filter", ["a,b"]), ("page", ["3"])], .malformed⟩).queryParams
        "page" = some ["3"] :=
  ⟨buildRequest_query_commaSplit ⟨[("filter", ["a,b"]), ("page", ["3"])], .malformed⟩
      "filter" ["a,b"] rfl,
   buildRequest_query_commaSplit ⟨[("filter", ["a,b"]), ("page", ["3"])], .malformed⟩
      "page" ["3"] rfl⟩

/-! ### C9 — registration guard -/

/-- C9: registering a prototype whose kind is not a plain struct aborts
with the fatal configuration panic and registers no routes; a plain struct
prototype registers its routes without panicking. -/
theorem addResource_structGuard (pfx : String) (proto : GoType) :
    (proto.kind ≠ .structKind →
        addResource pfx proto = .error "pass an empty resource struct to AddResource!") ∧
    (proto.kind = .structKind →
        ∃ routes, addResource pfx proto = .ok routes) := by
  constructor
  · intro h
    simp [addResource, h]
  · intro h
    unfold addResource
    rw [if_pos h]
    exact ⟨_, rfl⟩

theorem addResource_structGuard_witness :
    addResource "/v1/" ⟨.ptrKind, "Post", ["title"]⟩ =
      .error "pass an empty resource struct to AddResource!" ∧
    ∃ routes, addResource "/v1/" ⟨.structKind, "Post", ["title"]⟩ = .ok routes :=
  ⟨(addResource_structGuard "/v1/" ⟨.ptrKind, "Post", ["title"]⟩).1 (by decide),
   (addResource_structGuard "/v1/" ⟨.structKind, "Post", ["title"]⟩).2 rfl⟩

/-! ### Sample fixtures used by witnesses -/

/-- A data source whose operations all succeed, with fixed results. -/
def okSource : DataSource where
  findAll := fun _ => .ok []
  findOne := fun _ _ => .ok [("title", .str "stored")]
  findMultiple := fun _ _ => .ok [[("title", .str "a")], [("title", .str "b")]]
  create := fun _ => .ok "42"
  delete := fun _ => .ok ()
  update := fun _ => .ok ()

/-- A controller whose hooks all pass the value through unchanged. -/
def idController : Controller where
  findAll := fun _ o => .ok o
  findOne := fun _ o => .ok o
  create := fun _ x => .ok x
  update := fun _ x => .ok x
  delete := fun _ _ => .ok ()

def postBody : BodyInput := .val (.obj [("posts", .obj [("title", .str "hi")])])

def postReq : HttpRequest := ⟨[("filter", ["x"])], postBody⟩

def postsRes : Resource := ⟨"posts", ["title"], okSource, some idController⟩

/-! ### C4 — create success flow -/

/-- C4: on the successful create path the handler calls `Create` on the
hook-processed record, sets `Location` to `pfx ++ name ++ "/" ++ newID`,
re-fetches the record by `FindOne(newID, ctx)` and responds 201 with the
canonical persisted record as body, in that order. -/
theorem create_success_flow (res : Resource) (pfx : String) (r : HttpRequest)
    (c : Controller) (ctx : List (String × JsonVal)) (rec0 rec1 canonical : Rec)
    (newID : String)
    (hc : res.controller = some c)
    (hparse : unmarshalJSONRequest r.body = .ok ctx)
    (hdec : unmarshalInto res.name res.fields ctx [] = .ok [rec0])
    (hhook : c.create r rec0 = .ok rec1)
    (hcreate : res.source.create rec1 = .ok newID)
    (hfind : res.source.findOne newID (buildRequest r) = .ok canonical) :
    handleCreate res pfx r =
      ([.ctrlCreate, .dsCreate rec1,
        .setHeader "Location" (pfx ++ res.name ++ "/" ++ newID),
        .dsFindOne newID (buildRequest r),
        .setHeader "Content-Type" "application/json",
        .writeHeader 201, .writeBody (.data (.single canonical))], none) := by
  simp [handleCreate, createCommit, respondWith_eq, hparse, hdec, hc, hhook, hcreate,
    hfind]

theorem create_success_flow_witness :
    handleCreate postsRes "/v1/" postReq =
      ([.ctrlCreate, .dsCreate [("title", .str "hi")],
        .setHeader "Location" "/v1/posts/42",
        .dsFindOne "42" (buildRequest postReq),
        .setHeader "Content-Type" "application/json",
        .writeHeader 201,
        .writeBody (.data (.single [("title", .str "stored")]))], none) :=
  create_success_flow postsRes "/v1/" postReq idController
    [("posts", .obj [("title", .str "hi")])]
    [("title", .str "hi")] [("title", .str "hi")] [("title", .str "stored")] "42"
    rfl rfl rfl rfl rfl rfl

/-! ### C1 — update with partial merge -/

/-- C1: on a PUT the handler first fetches the current record, decodes the
body by partial merge against it (fields with keys present in the incoming
document are overwritten, all others retain the fetched value), runs the
registered `Update` hook, calls `Update` on the merged record and responds
204 with no body, in that order. -/
theorem update_partialMerge_flow (res : Resource) (r : HttpRequest) (id : String)
    (c : Controller) (ctx d : List (String × JsonVal)) (fetched u2 : Rec)
    (hc : res.controller = some c)
    (hfind : res.source.findOne id (buildRequest r) = .ok fetched)
    (hparse : unmarshalJSONRequest r.body = .ok ctx)
    (hdoc : lookupKey ctx res.name = some (.obj d))
    (hhook : c.update r (mergeRecord res.fields fetched d) = .ok u2)
    (hupd : res.source.update u2 = .ok ()) :
    handleUpdate res r id =
      ([.dsFindOne id (buildRequest r), .ctrlUpdate, .dsUpdate u2,
        .writeHeader 204], none) ∧
    (∀ f w, f ∈ res.fields → lookupKey d f = some w →
        lookupKey (mergeRecord res.fields fetched d) f = some w) ∧
    (∀ f v, f ∈ res.fields → lookupKey d f = none → lookupKey fetched f = some v →
        lookupKey (mergeRecord res.fields fetched d) f = some v) := by
  refine ⟨?_, ?_, ?_⟩
  · have hdec : unmarshalInto res.name res.fields ctx [fetched] =
        .ok [mergeRecord res.fields fetched d] := by
      simp [unmarshalInto, hdoc, mergeAll]
    simp [handleUpdate, updateCommit, hfind, hparse, hdec, hc, hhook, hupd]
  · intro f w hf hw
    rw [lookupKey_mergeRecord res.fields fetched d f hf, hw]
  · intro f v hf hnone hv
    rw [lookupKey_mergeRecord res.fields fetched d f hf, hnone, hv]
    rfl

/-- A data source for the update witness: `FindOne` returns a two-field
record, everything succeeds. -/
def updSource : DataSource where
  findAll := fun _ => .ok []
  findOne := fun _ _ => .ok [("title", .str "old"), ("body", .str "keep")]
  findMultiple := fun _ _ => .ok []
  create := fun _ => .ok "1"
  delete := fun _ => .ok ()
  update := fun _ => .ok ()

def updRes : Resource := ⟨"posts", ["title", "body"], updSource, some idController⟩

def updReq : HttpRequest :=
  ⟨[], .val (.obj [("posts", .obj [("title", .str "new")])])⟩

theorem update_partialMerge_flow_witness :
    handleUpdate updRes updReq "9" =
      ([.dsFindOne "9" (buildRequest updReq), .ctrlUpdate,
        .dsUpdate [("title", .str "new"), ("body", .str "keep")],
        .writeHeader 204], none) ∧
    lookupKey (mergeRecord ["title", "body"]
        [("title", .str "old"), ("body", .str "keep")]
        [("title", .str "new")]) "title" = some (.str "new") ∧
    lookupKey (mergeRecord ["title", "body"]
        [("title", .str "old"), ("body", .str "keep")]
        [("title", .str "new")]) "body" = some (.str "keep") := by
  have T := update_partialMerge_flow updRes updReq "9" idController
    [("posts", .obj [("title", .str "new")])] [("title", .str "new")]
    [("title", .str "old"), ("body", .str "keep")]
    [("title", .str "new"), ("body", .str "keep")]
    rfl rfl rfl rfl rfl rfl
  exact ⟨T.1, T.2.1 "title" (.str "new") (by decide) rfl,
    T.2.2 "body" (.str "keep") (by decide) rfl rfl⟩

/-! ### C5 — read dispatch -/

/-- C5: the id segment is comma-split; exactly one id goes to `FindOne`,
any other count goes to `FindMultiple` exactly once with the full list;
the registered `FindOne` hook then runs on the result and the response is
a 200 encoding of the hook's result. -/
theorem read_dispatch (res : Resource) (r : HttpRequest) (idSegment : String)
    (c : Controller) (hc : res.controller = some c) :
    (∀ i o o2, commaSplit idSegment = [i] →
        res.source.findOne i (buildRequest r) = .ok o →
        c.findOne r (.single o) = .ok o2 →
        handleRead res r idSegment =
          ([.dsFindOne i (buildRequest r), .ctrlFindOne,
            .setHeader "Content-Type" "application/json",
            .writeHeader 200, .writeBody (.data o2)], none)) ∧
    (∀ i j rest os o2, commaSplit idSegment = i :: j :: rest →
        res.source.findMultiple (i :: j :: rest) (buildRequest r) = .ok os →
        c.findOne r (.coll os) = .ok o2 →
        handleRead res r idSegment =
          ([.dsFindMultiple (i :: j :: rest) (buildRequest r), .ctrlFindOne,
            .setHeader "Content-Type" "application/json",
            .writeHeader 200, .writeBody (.data o2)], none)) := by
  constructor
  · intro i o o2 hsplit hfind hhook
    simp [handleRead, readRest, hsplit, hfind, hc, hhook, respondWith_eq]
  · intro i j rest os o2 hsplit hfind hhook
    simp [handleRead, readRest, hsplit, hfind, hc, hhook, respondWith_eq]

theorem read_dispatch_witness :
    handleRead postsRes postReq "7" =
      ([.dsFindOne "7" (buildRequest postReq), .ctrlFindOne,
        .setHeader "Content-Type" "application/json",
        .writeHeader 200,
        .writeBody (.data (.single [("title", .str "stored")]))], none) ∧
    handleRead postsRes postReq "1,2" =
      ([.dsFindMultiple ["1", "2"] (buildRequest postReq), .ctrlFindOne,
        .setHeader "Content-Type" "application/json",
        .writeHeader 200,
        .writeBody (.data (.coll [[("title", .str "a")], [("title", .str "b")]]))],
       none) :=
  ⟨(read_dispatch postsRes postReq "7" idController rfl).1 "7"
      [("title", .str "stored")] (.single [("title", .str "stored")]) rfl rfl rfl,
   (read_dispatch postsRes postReq "1,2" idController rfl).2 "1" "2" []
      [[("title", .str "a")], [("title", .str "b")]]
      (.coll [[("title", .str "a")], [("title", .str "b")]]) rfl rfl rfl⟩

/-! ### C2 — cardinality on create and update -/

/-- C2: when decoding the body yields a number of records different from
one, create and update fail with the "expected one object" error and the
trace shows no data-source mutation (for create not even a read); when it
yields exactly one record the operation proceeds to the corresponding
mutation. -/
theorem createUpdate_cardinality (res : Resource) (pfx : String) (r : HttpRequest)
    (id : String) (ctx : List (String × JsonVal))
    (hparse : unmarshalJSONRequest r.body = .ok ctx) :
    (∀ rs, unmarshalInto res.name res.fields ctx [] = .ok rs → rs.length ≠ 1 →
        handleCreate res pfx r = ([], some (.basic "expected one object in POST"))) ∧
    (∀ fetched rs, res.source.findOne id (buildRequest r) = .ok fetched →
        unmarshalInto res.name res.fields ctx [fetched] = .ok rs → rs.length ≠ 1 →
        handleUpdate res r id =
          ([.dsFindOne id (buildRequest r)],
           some (.basic "expected one object in PUT"))) ∧
    (∀ x, unmarshalInto res.name res.fields ctx [] = .ok [x] → res.controller = none →
        (handleCreate res pfx r).1.head? = some (.dsCreate x)) ∧
    (∀ fetched x, res.source.findOne id (buildRequest r) = .ok fetched →
        unmarshalInto res.name res.fields ctx [fetched] = .ok [x] →
        res.controller = none →
        (handleUpdate res r id).1.take 2 =
          [.dsFindOne id (buildRequest r), .dsUpdate x]) := by
  refine ⟨?_, ?_, ?_, ?_⟩
  · intro rs hdec hlen
    cases rs with
    | nil => simp [handleCreate, hparse, hdec]
    | cons a tl =>
        cases tl with
        | nil => exact absurd rfl hlen
        | cons b tl2 => simp [handleCreate, hparse, hdec]
  · intro fetched rs hfind hdec hlen
    cases rs with
    | nil => simp [handleUpdate, hfind, hparse, hdec]
    | cons a tl =>
        cases tl with
        | nil => exact absurd rfl hlen
        | cons b tl2 => simp [handleUpdate, hfind, hparse, hdec]
  · intro x hdec hc
    cases hcr : res.source.create x with
    | error e => simp [handleCreate, hparse, hdec, hc, createCommit, hcr]
    | ok newID =>
        cases hf : res.source.findOne newID (buildRequest r) with
        | error e => simp [handleCreate, hparse, hdec, hc, createCommit, hcr, hf]
        | ok obj =>
            simp [handleCreate, hparse, hdec, hc, createCommit, hcr, hf, respondWith_eq]
  · intro fetched x hfind hdec hc
    cases hu : res.source.update x with
    | error e => simp [handleUpdate, updateCommit, hfind, hparse, hdec, hc, hu]
    | ok _ => simp [handleUpdate, updateCommit, hfind, hparse, hdec, hc, hu]

/-- A resource without a controller, over the all-succeeding source. -/
def noCtrlRes : Resource := ⟨"posts", ["title"], okSource, none⟩

/-- A POST body describing two objects. -/
def twoBody : BodyInput :=
  .val (.obj [("posts", .arr [.obj [("title", .str "a")], .obj [("title", .str "b")]])])

def twoReq : HttpRequest := ⟨[], twoBody⟩

theorem createUpdate_cardinality_witness :
    handleCreate noCtrlRes "/v1/" twoReq =
      ([], some (.basic "expected one object in POST")) ∧
    (handleCreate noCtrlRes "/v1/" ⟨[("filter", ["x"])], postBody⟩).1.head? =
      some (.dsCreate [("title", .str "hi")]) :=
  ⟨(createUpdate_cardinality noCtrlRes "/v1/" twoReq "0"
      [("posts", .arr [.obj [("title", .str "a")], .obj [("title", .str "b")]])]
      rfl).1
      [[("title", .str "a")], [("title", .str "b")]] rfl (by decide),
   (createUpdate_cardinality noCtrlRes "/v1/" ⟨[("filter", ["x"])], postBody⟩ "0"
      [("posts", .obj [("title", .str "hi")])] rfl).2.2.1
      [("title", .str "hi")] rfl rfl⟩

/-! ### C3 — controller veto aborts before mutation -/

/-- C3: a failing write hook (`Create`, `Update` or `Delete`) aborts the
request with the hook's error, and the trace shows that the corresponding
data-source mutation was never invoked. -/
theorem controllerVeto_abortsMutation (res : Resource) (pfx : String) (r : HttpRequest)
    (id : String) (c : Controller) (e : Err)
    (hc : res.controller = some c) :
    (c.delete r id = .error e →
        handleDelete res r id = ([.ctrlDelete id], some e) ∧
        hasMutation (handleDelete res r id).1 = false) ∧
    (∀ ctx x, unmarshalJSONRequest r.body = .ok ctx →
        unmarshalInto res.name res.fields ctx [] = .ok [x] →
        c.create r x = .error e →
        handleCreate res pfx r = ([.ctrlCreate], some e) ∧
        hasMutation (handleCreate res pfx r).1 = false) ∧
    (∀ fetched ctx x, res.source.findOne id (buildRequest r) = .ok fetched →
        unmarshalJSONRequest r.body = .ok ctx →
        unmarshalInto res.name res.fields ctx [fetched] = .ok [x] →
        c.update r x = .error e →
        handleUpdate res r id =
          ([.dsFindOne id (buildRequest r), .ctrlUpdate], some e) ∧
        hasMutation (handleUpdate res r id).1 = false) := by
  refine ⟨?_, ?_, ?_⟩
  · intro hh
    have h1 : handleDelete res r id = ([.ctrlDelete id], some e) := by
      simp [handleDelete, hc, hh]
    exact ⟨h1, by rw [h1]; rfl⟩
  · intro ctx x hparse hdec hh
    have h1 : handleCreate res pfx r = ([.ctrlCreate], some e) := by
      simp [handleCreate, hparse, hdec, hc, hh]
    exact ⟨h1, by rw [h1]; rfl⟩
  · intro fetched ctx x hfind hparse hdec hh
    have h1 : handleUpdate res r id =
        ([.dsFindOne id (buildRequest r), .ctrlUpdate], some e) := by
      simp [handleUpdate, updateCommit, hfind, hparse, hdec, hc, hh]
    exact ⟨h1, by rw [h1]; rfl⟩

/-- A controller whose write hooks all veto with an authorization error. -/
def vetoController : Controller where
  findAll := fun _ o => .ok o
  findOne := fun _ o => .ok o
  create := fun _ _ => .error (.basic "forbidden")
  update := fun _ _ => .error (.basic "forbidden")
  delete := fun _ _ => .error (.basic "forbidden")

def vetoRes : Resource := ⟨"posts", ["title"], okSource, some vetoController⟩

theorem controllerVeto_abortsMutation_witness :
    handleDelete vetoRes postReq "3" =
      ([.ctrlDelete "3"], some (.basic "forbidden")) ∧
    hasMutation (handleDelete vetoRes postReq "3").1 = false :=
  (controllerVeto_abortsMutation vetoRes "/v1/" postReq "3" vetoController
      (.basic "forbidden") rfl).1 rfl

/-! ### C10 — non-object bodies -/

/-- A body whose top-level JSON value is an object. -/
def isTopLevelObj : BodyInput → Bool
  | .val (.obj _) => true
  | _ => false

/-- A body that is malformed JSON, a top-level array, or a scalar other
than the JSON literal `null`. -/
def badBody : BodyInput → Bool
  | .malformed => true
  | .val (.obj _) => false
  | .val .null => false
  | .val _ => true

/-- A data source for the null-body runs: `FindOne` yields a record and
every mutation succeeds. -/
def nullSource : DataSource where
  findAll := fun _ => .ok []
  findOne := fun _ _ => .ok [("title", .str "old")]
  findMultiple := fun _ _ => .ok []
  create := fun _ => .ok "1"
  delete := fun _ => .ok ()
  update := fun _ => .ok ()

def nullRes : Resource := ⟨"posts", ["title"], nullSource, none⟩

def nullReq : HttpRequest := ⟨[], .val .null⟩

/-- C10 counterexample: the JSON literal `null` is not a top-level object,
yet `unmarshalJSONRequest` succeeds on it (Go's `json.Unmarshal` sets a
map to nil on `null` with no error), and a PUT with a `null` body even
reaches the `Update` mutation and returns no error at all. -/
theorem nullBody_counterexample :
    isTopLevelObj (BodyInput.val .null) = false ∧
    unmarshalJSONRequest (BodyInput.val .null) = .ok [] ∧
    (handleUpdate nullRes nullReq "1").2 = none ∧
    hasMutation (handleUpdate nullRes nullReq "1").1 = true :=
  ⟨rfl, rfl, rfl, rfl⟩

/-- C10 (amended): for a body that is malformed, a top-level array, or a
scalar other than `null`, parsing fails and both create and update return
an error with no data-source mutation invoked. -/
theorem badBody_abortsBeforeMutation (res : Resource) (pfx : String)
    (r : HttpRequest) (id : String) (h : badBody r.body = true) :
    (∃ e, unmarshalJSONRequest r.body = .error e) ∧
    (handleCreate res pfx r).2.isSome = true ∧
    hasMutation (handleCreate res pfx r).1 = false ∧
    (handleUpdate res r id).2.isSome = true ∧
    hasMutation (handleUpdate res r id).1 = false := by
  obtain ⟨q, b⟩ := r
  have hperr : ∃ e, unmarshalJSONRequest b = .error e := by
    cases b with
    | malformed => exact ⟨_, rfl⟩
    | val v =>
        cases v with
        | null => simp [badBody] at h
        | obj kvs => simp [badBody] at h
        | bool x => exact ⟨_, rfl⟩
        | num n => exact ⟨_, rfl⟩
        | str s => exact ⟨_, rfl⟩
        | arr xs => exact ⟨_, rfl⟩
  obtain ⟨e, he⟩ := hperr
  refine ⟨⟨e, he⟩, ?_, ?_, ?_, ?_⟩
  · simp [handleCreate, he]
  · simp [handleCreate, he, hasMutation]
  · cases hf : res.source.findOne id (buildRequest ⟨q, b⟩) with
    | error e2 => simp [handleUpdate, hf]
    | ok fetched => simp [handleUpdate, hf, he]
  · cases hf : res.source.findOne id (buildRequest ⟨q, b⟩) with
    | error e2 => simp [handleUpdate, hf, hasMutation, isMutation]
    | ok fetched => simp [handleUpdate, hf, he, hasMutation, isMutation]

theorem badBody_abortsBeforeMutation_witness :
    badBody (HttpRequest.body ⟨[], .val (.arr [])⟩) = true ∧
    ((∃ e, unmarshalJSONRequest (HttpRequest.body ⟨[], .val (.arr [])⟩) = .error e) ∧
      (handleCreate nullRes "/" ⟨[], .val (.arr [])⟩).2.isSome = true ∧
      hasMutation (handleCreate nullRes "/" ⟨[], .val (.arr [])⟩).1 = false ∧
      (handleUpdate nullRes ⟨[], .val (.arr [])⟩ "1").2.isSome = true ∧
      hasMutation (handleUpdate nullRes ⟨[], .val (.arr [])⟩ "1").1 = false) :=
  ⟨rfl, badBody_abortsBeforeMutation nullRes "/" ⟨[], .val (.arr [])⟩ "1" rfl⟩

/-! ### C6 — single status write -/

/-- Number of body writes in a trace. -/
def countBodyWrites (t : List Event) : Nat := t.countP (fun e => isWriteBody e)

/-- A handler result writes well: a success trace carries exactly one
status write, a failure trace carries no status write and no body write. -/
def writesOk (p : List Event × Option Err) : Prop :=
  (p.2 = none → countWrites p.1 = 1) ∧
  (p.2.isSome = true → countWrites p.1 = 0 ∧ countBodyWrites p.1 = 0)

theorem writesOk_err (t : List Event) (e : Err) (h0 : countWrites t = 0)
    (hb : countBodyWrites t = 0) : writesOk (t, some e) := by
  constructor
  · intro h; cases h
  · intro _; exact ⟨h0, hb⟩

theorem writesOk_ok (t : List Event) (h1 : countWrites t = 1) : writesOk (t, none) := by
  constructor
  · intro _; exact h1
  · intro h; simp at h

theorem countWrites_append (a b : List Event) :
    countWrites (a ++ b) = countWrites a + countWrites b := by
  simp [countWrites, List.countP_append]

theorem countBodyWrites_append (a b : List Event) :
    countBodyWrites (a ++ b) = countBodyWrites a + countBodyWrites b := by
  simp [countBodyWrites, List.countP_append]

theorem handleError_writeOnce (e : Err) : countWrites (handleError e) = 1 := by
  cases e with
  | httpError he =>
      by_cases h : he.errs.length > 0
      · simp [handleError, h, countWrites, List.countP_cons, isWriteHeader]
      · simp [handleError, h, countWrites, List.countP_cons, isWriteHeader]
  | basic m => simp [handleError, countWrites, List.countP_cons, isWriteHeader]

theorem writesOk_handleIndex (res : Resource) (r : HttpRequest) :
    writesOk (handleIndex res r) := by
  cases hfa : res.source.findAll (buildRequest r) with
  | error e =>
      have heq : handleIndex res r = ([.dsFindAll (buildRequest r)], some e) := by
        simp [handleIndex, hfa]
      rw [heq]; exact writesOk_err _ _ rfl rfl
  | ok objs =>
      cases hc : res.controller with
      | none =>
          have heq : handleIndex res r =
              ([.dsFindAll (buildRequest r),
                .setHeader "Content-Type" "application/json",
                .writeHeader 200, .writeBody (.data (.coll objs))], none) := by
            simp [handleIndex, indexRest, hfa, hc, respondWith_eq]
          rw [heq]; exact writesOk_ok _ rfl
      | some c =>
          cases hh : c.findAll r (.coll objs) with
          | error e =>
              have heq : handleIndex res r =
                  ([.dsFindAll (buildRequest r), .ctrlFindAll], some e) := by
                simp [handleIndex, indexRest, hfa, hc, hh]
              rw [heq]; exact writesOk_err _ _ rfl rfl
          | ok objs2 =>
              have heq : handleIndex res r =
                  ([.dsFindAll (buildRequest r), .ctrlFindAll,
                    .setHeader "Content-Type" "application/json",
                    .writeHeader 200, .writeBody (.data objs2)], none) := by
                simp [handleIndex, indexRest, hfa, hc, hh, respondWith_eq]
              rw [heq]; exact writesOk_ok _ rfl

theorem writesOk_readRest (res : Resource) (r : HttpRequest) (ev : Event) (obj : Obj)
    (h0 : countWrites [ev] = 0) (hb : countBodyWrites [ev] = 0) :
    writesOk (readRest res r [ev] obj) := by
  cases hc : res.controller with
  | none =>
      have heq : readRest res r [ev] obj =
          ([ev, .setHeader "Content-Type" "application/json",
            .writeHeader 200, .writeBody (.data obj)], none) := by
        simp [readRest, hc, respondWith_eq]
      rw [heq]
      refine writesOk_ok _ ?_
      have : (ev :: [.setHeader "Content-Type" "application/json",
          .writeHeader 200, .writeBody (Body.data obj)]) =
          [ev] ++ [.setHeader "Content-Type" "application/json",
          .writeHeader 200, .writeBody (Body.data obj)] := rfl
      rw [this, countWrites_append, h0]; rfl
  | some c =>
      cases hh : c.findOne r obj with
      | error e =>
          have heq : readRest res r [ev] obj = ([ev, .ctrlFindOne], some e) := by
            simp [readRest, hc, hh]
          rw [heq]
          refine writesOk_err _ _ ?_ ?_
          · have : ([ev, Event.ctrlFindOne]) = [ev] ++ [Event.ctrlFindOne] := rfl
            rw [this, countWrites_append, h0]; rfl
          · have : ([ev, Event.ctrlFindOne]) = [ev] ++ [Event.ctrlFindOne] := rfl
            rw [this, countBodyWrites_append, hb]; rfl
      | ok o2 =>
          have heq : readRest res r [ev] obj =
              ([ev, .ctrlFindOne, .setHeader "Content-Type" "application/json",
                .writeHeader 200, .writeBody (.data o2)], none) := by
            simp [readRest, hc, hh, respondWith_eq]
          rw [heq]
          refine writesOk_ok _ ?_
          have : (ev :: [Event.ctrlFindOne,
              .setHeader "Content-Type" "application/json",
              .writeHeader 200, .writeBody (Body.data o2)]) =
              [ev] ++ [Event.ctrlFindOne,
              .setHeader "Content-Type" "application/json",
              .writeHeader 200, .writeBody (Body.data o2)] := rfl
          rw [this, countWrites_append, h0]; rfl

theorem writesOk_handleRead (res : Resource) (r : HttpRequest) (idSegment : String) :
    writesOk (handleRead res r idSegment) := by
  cases hsp : commaSplit idSegment with
  | nil =>
      cases hfm : res.source.findMultiple [] (buildRequest r) with
      | error e =>
          have heq : handleRead res r idSegment =
              ([.dsFindMultiple [] (buildRequest r)], some e) := by
            simp [handleRead, hsp, hfm]
          rw [heq]; exact writesOk_err _ _ rfl rfl
      | ok os =>
          have heq : handleRead res r idSegment =
              readRest res r [.dsFindMultiple [] (buildRequest r)] (.coll os) := by
            simp [handleRead, hsp, hfm]
          rw [heq]; exact writesOk_readRest res r _ _ rfl rfl
  | cons i tl =>
      cases tl with
      | nil =>
          cases hfo : res.source.findOne i (buildRequest r) with
          | error e =>
              have heq : handleRead res r idSegment =
                  ([.dsFindOne i (buildRequest r)], some e) := by
                simp [handleRead, hsp, hfo]
              rw [heq]; exact writesOk_err _ _ rfl rfl
          | ok o =>
              have heq : handleRead res r idSegment =
                  readRest res r [.dsFindOne i (buildRequest r)] (.single o) := by
                simp [handleRead, hsp, hfo]
              rw [heq]; exact writesOk_readRest res r _ _ rfl rfl
      | cons j tl2 =>
          cases hfm : res.source.findMultiple (i :: j :: tl2) (buildRequest r) with
          | error e =>
              have heq : handleRead res r idSegment =
                  ([.dsFindMultiple (i :: j :: tl2) (buildRequest r)], some e) := by
                simp [handleRead, hsp, hfm]
              rw [heq]; exact writesOk_err _ _ rfl rfl
          | ok os =>
              have heq : handleRead res r idSegment =
                  readRest res r [.dsFindMultiple (i :: j :: tl2) (buildRequest r)]
                    (.coll os) := by
                simp [handleRead, hsp, hfm]
              rw [heq]; exact writesOk_readRest res r _ _ rfl rfl

theorem writesOk_createCommit (res : Resource) (pfx : String) (r : HttpRequest)
    (t : List Event) (newObj : Rec) (h0 : countWrites t = 0)
    (hb : countBodyWrites t = 0) :
    writesOk (createCommit res pfx r t newObj) := by
  cases hcr : res.source.create newObj with
  | error e =>
      have heq : createCommit res pfx r t newObj =
          (t ++ [.dsCreate newObj], some e) := by
        simp [createCommit, hcr]
      rw [heq]
      refine writesOk_err _ _ ?_ ?_
      · rw [countWrites_append, h0]; rfl
      · rw [countBodyWrites_append, hb]; rfl
  | ok id =>
      cases hf : res.source.findOne id (buildRequest r) with
      | error e =>
          have heq : createCommit res pfx r t newObj =
              (t ++ [.dsCreate newObj,
                     .setHeader "Location" (pfx ++ res.name ++ "/" ++ id),
                     .dsFindOne id (buildRequest r)], some e) := by
            simp [createCommit, hcr, hf]
          rw [heq]
          refine writesOk_err _ _ ?_ ?_
          · rw [countWrites_append, h0]; rfl
          · rw [countBodyWrites_append, hb]; rfl
      | ok obj =>
          have heq : createCommit res pfx r t newObj =
              (t ++ [.dsCreate newObj,
                     .setHeader "Location" (pfx ++ res.name ++ "/" ++ id),
                     .dsFindOne id (buildRequest r),
                     .setHeader "Content-Type" "application/json",
                     .writeHeader 201, .writeBody (.data (.single obj))], none) := by
            simp [createCommit, hcr, hf, respondWith_eq]
          rw [heq]
          refine writesOk_ok _ ?_
          rw [countWrites_append, h0]; rfl

theorem writesOk_handleCreate (res : Resource) (pfx : String) (r : HttpRequest) :
    writesOk (handleCreate res pfx r) := by
  cases hp : unmarshalJSONRequest r.body with
  | error e =>
      have heq : handleCreate res pfx r = ([], some e) := by
        simp [handleCreate, hp]
      rw [heq]; exact writesOk_err _ _ rfl rfl
  | ok ctx =>
      cases hd : unmarshalInto res.name res.fields ctx [] with
      | error e =>
          have heq : handleCreate res pfx r = ([], some e) := by
            simp [handleCreate, hp, hd]
          rw [heq]; exact writesOk_err _ _ rfl rfl
      | ok rs =>
          cases rs with
          | nil =>
              have heq : handleCreate res pfx r =
                  ([], some (.basic "expected one object in POST")) := by
                simp [handleCreate, hp, hd]
              rw [heq]; exact writesOk_err _ _ rfl rfl
          | cons a tl =>
              cases tl with
              | nil =>
                  cases hc : res.controller with
                  | none =>
                      have heq : handleCreate res pfx r =
                          createCommit res pfx r [] a := by
                        simp [handleCreate, hp, hd, hc]
                      rw [heq]; exact writesOk_createCommit res pfx r [] a rfl rfl
                  | some c =>
                      cases hh : c.create r a with
                      | error e =>
                          have heq : handleCreate res pfx r =
                              ([.ctrlCreate], some e) := by
                            simp [handleCreate, hp, hd, hc, hh]
                          rw [heq]; exact writesOk_err _ _ rfl rfl
                      | ok a2 =>
                          have heq : handleCreate res pfx r =
                              createCommit res pfx r [.ctrlCreate] a2 := by
                            simp [handleCreate, hp, hd, hc, hh]
                          rw [heq]
                          exact writesOk_createCommit res pfx r [.ctrlCreate] a2 rfl rfl
              | cons b tl2 =>
                  have heq : handleCreate res pfx r =
                      ([], some (.basic "expected one object in POST")) := by
                    simp [handleCreate, hp, hd]
                  rw [heq]; exact writesOk_err _ _ rfl rfl

theorem writesOk_updateCommit (res : Resource) (r : HttpRequest) (ev : Event)
    (u : Rec) (h0 : countWrites [ev] = 0) (hb : countBodyWrites [ev] = 0) :
    writesOk (updateCommit res r [ev] u) := by
  cases hc : res.controller with
  | none =>
      cases hu : res.source.update u with
      | error e =>
          have heq : updateCommit res r [ev] u = ([ev, .dsUpdate u], some e) := by
            simp [updateCommit, hc, hu]
          rw [heq]
          refine writesOk_err _ _ ?_ ?_
          · have h2 : ([ev, Event.dsUpdate u]) = [ev] ++ [Event.dsUpdate u] := rfl
            rw [h2, countWrites_append, h0]; rfl
          · have h2 : ([ev, Event.dsUpdate u]) = [ev] ++ [Event.dsUpdate u] := rfl
            rw [h2, countBodyWrites_append, hb]; rfl
      | ok _ =>
          have heq : updateCommit res r [ev] u =
              ([ev, .dsUpdate u, .writeHeader 204], none) := by
            simp [updateCommit, hc, hu]
          rw [heq]
          refine writesOk_ok _ ?_
          have h2 : ([ev, Event.dsUpdate u, Event.writeHeader 204]) =
              [ev] ++ [Event.dsUpdate u, Event.writeHeader 204] := rfl
          rw [h2, countWrites_append, h0]; rfl
  | some c =>
      cases hh : c.update r u with
      | error e =>
          have heq : updateCommit res r [ev] u = ([ev, .ctrlUpdate], some e) := by
            simp [updateCommit, hc, hh]
          rw [heq]
          refine writesOk_err _ _ ?_ ?_
          · have h2 : ([ev, Event.ctrlUpdate]) = [ev] ++ [Event.ctrlUpdate] := rfl
            rw [h2, countWrites_append, h0]; rfl
          · have h2 : ([ev, Event.ctrlUpdate]) = [ev] ++ [Event.ctrlUpdate] := rfl
            rw [h2, countBodyWrites_append, hb]; rfl
      | ok u2 =>
          cases hu : res.source.update u2 with
          | error e =>
              have heq : updateCommit res r [ev] u =
                  ([ev, .ctrlUpdate, .dsUpdate u2], some e) := by
                simp [updateCommit, hc, hh, hu]
              rw [heq]
              refine writesOk_err _ _ ?_ ?_
              · have h2 : ([ev, Event.ctrlUpdate, Event.dsUpdate u2]) =
                    [ev] ++ [Event.ctrlUpdate, Event.dsUpdate u2] := rfl
                rw [h2, countWrites_append, h0]; rfl
              · have h2 : ([ev, Event.ctrlUpdate, Event.dsUpdate u2]) =
                    [ev] ++ [Event.ctrlUpdate, Event.dsUpdate u2] := rfl
                rw [h2, countBodyWrites_append, hb]; rfl
          | ok _ =>
              have heq : updateCommit res r [ev] u =
                  ([ev, .ctrlUpdate, .dsUpdate u2, .writeHeader 204], none) := by
                simp [updateCommit, hc, hh, hu]
              rw [heq]
              refine writesOk_ok _ ?_
              have h2 : ([ev, Event.ctrlUpdate, Event.dsUpdate u2,
                  Event.writeHeader 204]) =
                  [ev] ++ [Event.ctrlUpdate, Event.dsUpdate u2,
                  Event.writeHeader 204] := rfl
              rw [h2, countWrites_append, h0]; rfl

theorem writesOk_handleUpdate (res : Resource) (r : HttpRequest) (id : String) :
    writesOk (handleUpdate res r id) := by
  cases hf : res.source.findOne id (buildRequest r) with
  | error e =>
      have heq : handleUpdate res r id = ([.dsFindOne id (buildRequest r)], some e) := by
        simp [handleUpdate, hf]
      rw [heq]; exact writesOk_err _ _ rfl rfl
  | ok obj =>
      cases hp : unmarshalJSONRequest r.body with
      | error e =>
          have heq : handleUpdate res r id =
              ([.dsFindOne id (buildRequest r)], some e) := by
            simp [handleUpdate, hf, hp]
          rw [heq]; exact writesOk_err _ _ rfl rfl
      | ok ctx =>
          cases hd : unmarshalInto res.name res.fields ctx [obj] with
          | error e =>
              have heq : handleUpdate res r id =
                  ([.dsFindOne id (buildRequest r)], some e) := by
                simp [handleUpdate, hf, hp, hd]
              rw [heq]; exact writesOk_err _ _ rfl rfl
          | ok rs =>
              cases rs with
              | nil =>
                  have heq : handleUpdate res r id =
                      ([.dsFindOne id (buildRequest r)],
                       some (.basic "expected one object in PUT")) := by
                    simp [handleUpdate, hf, hp, hd]
                  rw [heq]; exact writesOk_err _ _ rfl rfl
              | cons a tl =>
                  cases tl with
                  | nil =>
                      have heq : handleUpdate res r id =
                          updateCommit res r [.dsFindOne id (buildRequest r)] a := by
                        simp [handleUpdate, hf, hp, hd]
                      rw [heq]
                      exact writesOk_updateCommit res r
                        (.dsFindOne id (buildRequest r)) a rfl rfl
                  | cons b tl2 =>
                      have heq : handleUpdate res r id =
                          ([.dsFindOne id (buildRequest r)],
                           some (.basic "expected one object in PUT")) := by
                        simp [handleUpdate, hf, hp, hd]
                      rw [heq]; exact writesOk_err _ _ rfl rfl

theorem writesOk_handleDelete (res : Resource) (r : HttpRequest) (id : String) :
    writesOk (handleDelete res r id) := by
  cases hc : res.controller with
  | none =>
      cases hd : res.source.delete id with
      | error e =>
          have heq : handleDelete res r id = ([.dsDelete id], some e) := by
            simp [handleDelete, hc, hd]
          rw [heq]; exact writesOk_err _ _ rfl rfl
      | ok _ =>
          have heq : handleDelete res r id =
              ([.dsDelete id, .writeHeader 204], none) := by
            simp [handleDelete, hc, hd]
          rw [heq]; exact writesOk_ok _ rfl
  | some c =>
      cases hh : c.delete r id with
      | error e =>
          have heq : handleDelete res r id = ([.ctrlDelete id], some e) := by
            simp [handleDelete, hc, hh]
          rw [heq]; exact writesOk_err _ _ rfl rfl
      | ok _ =>
          cases hd : res.source.delete id with
          | error e =>
              have heq : handleDelete res r id =
                  ([.ctrlDelete id, .dsDelete id], some e) := by
                simp [handleDelete, hc, hh, hd]
              rw [heq]; exact writesOk_err _ _ rfl rfl
          | ok _ =>
              have heq : handleDelete res r id =
                  ([.ctrlDelete id, .dsDelete id, .writeHeader 204], none) := by
                simp [handleDelete, hc, hh, hd]
              rw [heq]; exact writesOk_ok _ rfl

theorem fullTrace_writeOnce (p : List Event × Option Err) (h : writesOk p) :
    countWrites (fullTrace p) = 1 := by
  unfold fullTrace
  cases hp : p.2 with
  | none =>
      rw [countWrites_append, h.1 hp]
      rfl
  | some e =>
      rw [countWrites_append, (h.2 (by simp [hp])).1, handleError_writeOnce]

/-- C6 (amended): on every verb, the full request trace (handler followed
by error translation on failure) writes the status exactly once, and on a
failing handler run neither status nor body has been written before the
failure decision; a response header (`Location` after a successful
`Create`) may however already have been set when a later step fails. -/
theorem singleStatusWrite (res : Resource) (pfx : String) (r : HttpRequest)
    (idSegment uid did : String) :
    (countWrites (fullTrace (handleIndex res r)) = 1 ∧
      ((handleIndex res r).2.isSome = true →
        countWrites (handleIndex res r).1 = 0 ∧
        countBodyWrites (handleIndex res r).1 = 0)) ∧
    (countWrites (fullTrace (handleRead res r idSegment)) = 1 ∧
      ((handleRead res r idSegment).2.isSome = true →
        countWrites (handleRead res r idSegment).1 = 0 ∧
        countBodyWrites (handleRead res r idSegment).1 = 0)) ∧
    (countWrites (fullTrace (handleCreate res pfx r)) = 1 ∧
      ((handleCreate res pfx r).2.isSome = true →
        countWrites (handleCreate res pfx r).1 = 0 ∧
        countBodyWrites (handleCreate res pfx r).1 = 0)) ∧
    (countWrites (fullTrace (handleUpdate res r uid)) = 1 ∧
      ((handleUpdate res r uid).2.isSome = true →
        countWrites (handleUpdate res r uid).1 = 0 ∧
        countBodyWrites (handleUpdate res r uid).1 = 0)) ∧
    (countWrites (fullTrace (handleDelete res r did)) = 1 ∧
      ((handleDelete res r did).2.isSome = true →
        countWrites (handleDelete res r did).1 = 0 ∧
        countBodyWrites (handleDelete res r did).1 = 0)) :=
  ⟨⟨fullTrace_writeOnce _ (writesOk_handleIndex res r),
    (writesOk_handleIndex res r).2⟩,
   ⟨fullTrace_writeOnce _ (writesOk_handleRead res r idSegment),
    (writesOk_handleRead res r idSegment).2⟩,
   ⟨fullTrace_writeOnce _ (writesOk_handleCreate res pfx r),
    (writesOk_handleCreate res pfx r).2⟩,
   ⟨fullTrace_writeOnce _ (writesOk_handleUpdate res r uid),
    (writesOk_handleUpdate res r uid).2⟩,
   ⟨fullTrace_writeOnce _ (writesOk_handleDelete res r did),
    (writesOk_handleDelete res r did).2⟩⟩

theorem singleStatusWrite_witness :
    countWrites (fullTrace (handleDelete vetoRes postReq "3")) = 1 ∧
    countWrites (handleDelete vetoRes postReq "3").1 = 0 :=
  ⟨(singleStatusWrite vetoRes "/" postReq "1" "2" "3").2.2.2.2.1,
   ((singleStatusWrite vetoRes "/" postReq "1" "2" "3").2.2.2.2.2 rfl).1⟩

/-- A data source whose `Create` succeeds but whose `FindOne` fails, the
path on which `handleCreate` has already set the `Location` header when
the failure decision is made. -/
def failFindSource : DataSource where
  findAll := fun _ => .ok []
  findOne := fun _ _ => .error (.basic "db down")
  findMultiple := fun _ _ => .ok []
  create := fun _ => .ok "1"
  delete := fun _ => .ok ()
  update := fun _ => .ok ()

def failFindRes : Resource := ⟨"posts", ["title"], failFindSource, none⟩

/-- C6 counterexample: a create whose re-fetch fails has already set the
`Location` response header before the failure decision, so it is not true
that no header has been set when a step fails. -/
theorem headerBeforeFailure_counterexample :
    (handleCreate failFindRes "/" ⟨[], postBody⟩).2 = some (.basic "db down") ∧
    (handleCreate failFindRes "/" ⟨[], postBody⟩).1.any isSetHeader = true :=
  ⟨rfl, rfl⟩

end Api2go
